import Mathlib

/-!
Verification of `app/retrieve_motion_events.py` (reolink_sms repository).

Shallow embedding conventions:
* Python strings are Lean `String`s; the string primitives the script uses
  (`str.strip`, `str.lower`, `str.startswith('#')`, `'=' in s`,
  `str.split('=', 1)`, `" ".join`) are re-implemented structurally on the
  character list so that the kernel can evaluate them (`pyStrip`, `pyLower`,
  `pyStartsWithHash`, `pyContains`, `splitAtFirstEq`, `joinSp`).
* A Python dict built by repeated `d[k] = v` assignments is modelled as the
  assignment list in order; `dictGet` returns the value of the last
  assignment, which is observably equivalent for the script's only dict
  reads (`config.get`).
* Wall-clock timestamps (`time.time()` floats) and the cooldown window are
  modelled as integers: every claim about them involves only subtraction
  and order comparison, which the integer model reflects exactly.
* Fallible Python code (exceptions) is modelled with `Except`/`Option`;
  external collaborators (the Twilio client call, `shutil.disk_usage`,
  filesystem reads) are modelled as explicit inputs describing their
  outcome.
-/

namespace ReolinkSms

/-- Python `str.strip()` (whitespace stripped from both ends). Lean's
`Char.isWhitespace` covers the ASCII whitespace the script's inputs use. -/
def pyStrip (s : String) : String :=
  ⟨((s.data.dropWhile Char.isWhitespace).reverse.dropWhile Char.isWhitespace).reverse⟩

/-- Python `str.lower()` (ASCII case folding suffices for the tokens used). -/
def pyLower (s : String) : String :=
  ⟨s.data.map Char.toLower⟩

/-- Python `line.startswith('#')`. -/
def pyStartsWithHash (s : String) : Bool :=
  match s.data with
  | c :: _ => c = '#'
  | [] => false

/-- Python `c in s` for a single character. -/
def pyContains (s : String) (c : Char) : Bool :=
  s.data.contains c

/-- Python `s.split('=', 1)` on a string containing `'='`: the characters
before the first `'='` and the characters after it. -/
def splitAtFirstEq : List Char → List Char × List Char
  | [] => ([], [])
  | c :: rest =>
    if c = '=' then ([], rest)
    else
      let p := splitAtFirstEq rest
      (c :: p.1, p.2)

/-- Python `" ".join(parts)`. -/
def joinSp : List String → String
  | [] => ""
  | [p] => p
  | p :: q :: rest => p ++ " " ++ joinSp (q :: rest)

/-- Lookup in the assignment-list model of a Python dict: the value of the
last assignment to `k` (later assignments overwrite earlier ones). -/
def dictGet (l : List (String × String)) (k : String) : Option String :=
  l.foldl (fun acc p => if p.1 = k then some p.2 else acc) none

/-- One iteration of the `load_env` parsing loop (source lines 65-71):
strip the line; skip it when blank or a `#` comment; when it contains `'='`
split at the first `'='`, strip key and value, and assign into the dict
(modelled by appending the assignment; `dictGet` takes the last one). -/
def processLine (config : List (String × String)) (rawLine : String) : List (String × String) :=
  let line := pyStrip rawLine
  if line = "" then config
  else if pyStartsWithHash line then config
  else if pyContains line '=' then
    let p := splitAtFirstEq line.data
    config ++ [(pyStrip ⟨p.1⟩, pyStrip ⟨p.2⟩)]
  else config

/-- Stripped key contributed by a `KEY=VALUE` line. -/
def lineKey (rawLine : String) : String :=
  pyStrip ⟨(splitAtFirstEq (pyStrip rawLine).data).1⟩

/-- Stripped value contributed by a `KEY=VALUE` line. -/
def lineValue (rawLine : String) : String :=
  pyStrip ⟨(splitAtFirstEq (pyStrip rawLine).data).2⟩

/-- `load_env` (source lines 45-73). The `.env` file is modelled as
`none` when absent, and as its list of lines otherwise; a missing file is
the `sys.exit(1)` path, modelled as `Except.error 1`. -/
def load_env (file : Option (List String)) : Except Nat (List (String × String)) :=
  match file with
  | none => Except.error 1
  | some lines => Except.ok (lines.foldl processLine [])

/-- Dynamically typed Python values that flow through `get_config_value`. -/
inductive PyVal where
  | vnone
  | vstr (s : String)
  | vbool (b : Bool)
  | vint (n : Int)
deriving DecidableEq

/-- The `value_type` argument of `get_config_value`. The `float` target
type of the source is not modelled: no claim exercises it and IEEE float
conversion is out of scope for this embedding. -/
inductive ValueType where
  | tstr
  | tint
  | tbool
deriving DecidableEq

/-- The truthy tokens of the boolean branch (source line 84). -/
def truthy_tokens : List String := ["true", "1", "yes", "on"]

/-- Parse decimal digits, failing on the empty list or a non-digit. -/
def parseDigits : List Char → Option Nat
  | [] => none
  | cs => go cs 0
where
  go : List Char → Nat → Option Nat
    | [], acc => some acc
    | c :: rest, acc =>
      if c.isDigit then go rest (acc * 10 + (c.toNat - '0'.toNat)) else none

/-- Python `int(s)` on a string: optional sign, decimal digits,
surrounding whitespace ignored (underscore separators are not modelled;
no claim exercises them). -/
def pyParseInt (s : String) : Option Int :=
  match (pyStrip s).data with
  | '-' :: rest => (parseDigits rest).map (fun n => -(n : Int))
  | '+' :: rest => (parseDigits rest).map (fun n => (n : Int))
  | cs => (parseDigits cs).map (fun n => (n : Int))

/-- `get_config_value` (source lines 76-90). A present key always yields
the raw string from the config dict; an absent key yields the caller's
`default`, which may be any Python value. The boolean branch calls
`value.lower()`, which raises `AttributeError` when `value` is not a
string — modelled as `Except.error "AttributeError"`. The int branch
models Python `int(value)` (`ValueError` on an unparsable string). -/
def get_config_value (config : List (String × String)) (key : String)
    (default : PyVal) (value_type : ValueType) : Except String PyVal :=
  let value : PyVal :=
    match dictGet config key with
    | some s => PyVal.vstr s
    | none => default
  match value with
  | PyVal.vnone => Except.ok PyVal.vnone
  | v =>
    match value_type with
    | ValueType.tbool =>
      match v with
      | PyVal.vstr s => Except.ok (PyVal.vbool (truthy_tokens.contains (pyLower s)))
      | _ => Except.error "AttributeError"
    | ValueType.tint =>
      match v with
      | PyVal.vstr s =>
        match pyParseInt s with
        | some n => Except.ok (PyVal.vint n)
        | none => Except.error "ValueError"
      | PyVal.vint n => Except.ok (PyVal.vint n)
      | PyVal.vbool b => Except.ok (PyVal.vint (if b then 1 else 0))
      | PyVal.vnone => Except.ok PyVal.vnone
    | ValueType.tstr => Except.ok v

/-- The `parts` list built by `format_duration` (source lines 93-108). -/
def duration_parts (seconds : Nat) : List String :=
  let days := seconds / 86400
  let hours := (seconds % 86400) / 3600
  let minutes := (seconds % 3600) / 60
  let secs := seconds % 60
  let parts : List String := []
  let parts := if days > 0 then parts ++ [toString days ++ "d"] else parts
  let parts := if hours > 0 then parts ++ [toString hours ++ "h"] else parts
  let parts := if minutes > 0 then parts ++ [toString minutes ++ "m"] else parts
  let parts := if secs > 0 || parts.isEmpty then parts ++ [toString secs ++ "s"] else parts
  parts

/-- `format_duration` (source lines 93-110): `" ".join(parts)`. -/
def format_duration (seconds : Nat) : String :=
  joinSp (duration_parts seconds)

/-- The fields of `MotionEventRetriever` that `send_sms` reads and writes:
whether `self.twilio_client` is set, the cooldown window, and the time of
the last successful send. Timestamps and the window are integers (the
claims involve only subtraction and order). -/
structure SmsState where
  twilioConfigured : Bool
  sms_cooldown : Int
  last_sms_time : Int
deriving DecidableEq

/-- How one `send_sms` call ended. -/
inductive SmsOutcome where
  | notConfigured
  | suppressed
  | delivered
  | providerError
deriving DecidableEq

/-- Return value, outcome, and post-state of one `send_sms` call. -/
structure SmsResult where
  retval : Bool
  outcome : SmsOutcome
  state : SmsState
deriving DecidableEq

/-- `send_sms` (source lines 209-245). `current_time` is the `time()`
reading; `provider_ok` models whether the external Twilio
`messages.create` call succeeds or raises. Delivery is attempted exactly
when the outcome is `delivered` or `providerError`. -/
def send_sms (st : SmsState) (current_time : Int) (force : Bool)
    (provider_ok : Bool) : SmsResult :=
  if !st.twilioConfigured then ⟨false, SmsOutcome.notConfigured, st⟩
  else if !force && (current_time - st.last_sms_time < st.sms_cooldown) then
    ⟨false, SmsOutcome.suppressed, st⟩
  else if provider_ok then
    ⟨true, SmsOutcome.delivered, { st with last_sms_time := current_time }⟩
  else ⟨false, SmsOutcome.providerError, st⟩

/-- Environment of one `check_touchfile` call: the enable flag (set only
when a touchfile path is configured), whether `path.exists()`, the result
of `path.read_text()` (`none` models a read exception), the timestamped
default message the code builds, and whether the forced send succeeds. -/
structure TouchfileCtx where
  touchfile_enabled : Bool
  path_exists : Bool
  read_result : Option String
  default_message : String
  send_ok : Bool
deriving DecidableEq

/-- Observable effect of one `check_touchfile` call: the message and force
flag passed to `send_sms_async` (`none` when no send happens), and whether
`unlink` was attempted. -/
structure TouchfileEffect where
  sent : Option (String × Bool)
  unlink_attempted : Bool
deriving DecidableEq

/-- `check_touchfile` (source lines 262-296): when enabled and the file
exists, the message is the stripped file content if that is non-empty,
otherwise (empty after stripping, or read error) the default timestamped
message; it is sent with `force=True`; the file is unlinked after the send
regardless of the send result (the model records the attempt; an unlink
error is only logged). -/
def check_touchfile (ctx : TouchfileCtx) : TouchfileEffect :=
  if !ctx.touchfile_enabled then ⟨none, false⟩
  else if !ctx.path_exists then ⟨none, false⟩
  else
    let message :=
      match ctx.read_result with
      | some content =>
        let message_content := pyStrip content
        if message_content ≠ "" then message_content else ctx.default_message
      | none => ctx.default_message
    ⟨some (message, true), true⟩

/-- The `shutil.disk_usage` triple, in bytes. -/
structure DiskUsage where
  total : Nat
  used : Nat
  free : Nat
deriving DecidableEq

/-- `percent_used = (usage.used / usage.total) * 100` (source line 308),
with the float arithmetic modelled exactly over the rationals. -/
def percent_used (u : DiskUsage) : Rat :=
  ((u.used : Rat) / (u.total : Rat)) * 100

/-- One decimal place formatting of a non-negative rational, modelling the
`:.1f` float format of the source message (rounding half up; the binary
float rounding of Python differs at most in the last digit and no claim
depends on it). -/
def fmt1 (q : Rat) : String :=
  let n : Int := ⌊q * 10 + 1 / 2⌋
  toString (n / 10) ++ "." ++ toString (n % 10)

/-- Bytes to GiB (`usage.x / (1024**3)`, source lines 323-325). -/
def gib (bytes : Nat) : Rat :=
  (bytes : Rat) / ((1024 : Rat) ^ 3)

/-- The disk alert message (source lines 327-331). -/
def disk_alert_message (path : String) (u : DiskUsage) : String :=
  "⚠️ Disk space alert: " ++ path ++ "\n" ++
    fmt1 (percent_used u) ++ "% used (" ++ fmt1 (gib u.used) ++ "GB / " ++
    fmt1 (gib u.total) ++ "GB)\n" ++ fmt1 (gib u.free) ++ "GB free remaining"

/-- Observable effect and post-state of one `check_disk_space` call:
the message passed to `send_sms_async` (`none` when no send was
attempted), whether that send returned success, the SMS state after the
call, and `last_disk_alert_time` after the call. -/
structure DiskCheckResult where
  attempted_message : Option String
  sent : Bool
  sms : SmsState
  last_disk_alert_time : Int
deriving DecidableEq

/-- `check_disk_space` (source lines 298-340). `usage = none` models the
`shutil.disk_usage` call raising (logged and swallowed); `u.total = 0`
models the `ZeroDivisionError` path, likewise swallowed by the outer
`except`. Under threshold, or within the disk-alert cooldown, nothing is
sent and no state changes. Otherwise the alert message is passed to
`send_sms` with `force=False`, and `last_disk_alert_time` is updated to
the check time only when that send returns success. -/
def check_disk_space (enabled : Bool) (path : String) (threshold : Int)
    (sms : SmsState) (last_disk_alert_time : Int) (usage : Option DiskUsage)
    (current_time : Int) (provider_ok : Bool) : DiskCheckResult :=
  if !enabled then ⟨none, false, sms, last_disk_alert_time⟩
  else
    match usage with
    | none => ⟨none, false, sms, last_disk_alert_time⟩
    | some u =>
      if u.total = 0 then ⟨none, false, sms, last_disk_alert_time⟩
      else if (threshold : Rat) ≤ percent_used u then
        if current_time - last_disk_alert_time < sms.sms_cooldown then
          ⟨none, false, sms, last_disk_alert_time⟩
        else
          let message := disk_alert_message path u
          let r := send_sms sms current_time false provider_ok
          if r.retval then ⟨some message, true, r.state, current_time⟩
          else ⟨some message, false, r.state, last_disk_alert_time⟩
      else ⟨none, false, sms, last_disk_alert_time⟩

/-- The two motion event types appended by `event_callback`. -/
inductive EvType where
  | motion_start
  | motion_end
deriving DecidableEq

/-- The state `event_callback` reads and writes: `self.last_motion_state`
(a dict from channel to flag, `.get(channel, False)` on read) and
`self.motion_events` (the model keeps channel and type; the timestamp
plays no role in the claims). The dict is modelled by prepending on write
and taking the first hit on read. -/
structure MonState where
  last_motion_state : List (Nat × Bool)
  motion_events : List (Nat × EvType)

/-- `self.last_motion_state.get(channel, False)`. -/
def getFlag (l : List (Nat × Bool)) (channel : Nat) : Bool :=
  match l.find? (fun p => p.1 == channel) with
  | some p => p.2
  | none => false

/-- `self.last_motion_state[channel] = motion_now`. -/
def setFlag (l : List (Nat × Bool)) (channel : Nat) (b : Bool) : List (Nat × Bool) :=
  (channel, b) :: l

/-- `event_callback` (source lines 443-492) for one invocation that read
`motion_now` for `channel`: append a `motion_start` on a false→true
transition, a `motion_end` on a true→false transition, nothing otherwise;
then unconditionally store the fresh reading. (An exception while reading
the motion state returns before any of this; such an invocation is
modelled as not occurring. The SMS side effect does not touch this
state.) -/
def event_callback (st : MonState) (channel : Nat) (motion_now : Bool) : MonState :=
  let was_motion := getFlag st.last_motion_state channel
  let st1 :=
    if motion_now && !was_motion then
      { st with motion_events := st.motion_events ++ [(channel, EvType.motion_start)] }
    else if !motion_now && was_motion then
      { st with motion_events := st.motion_events ++ [(channel, EvType.motion_end)] }
    else st
  { st1 with last_motion_state := setFlag st1.last_motion_state channel motion_now }

/-- The initial retriever state (`last_motion_state = {}`,
`motion_events = []`, source lines 125-126). -/
def initMonState : MonState := ⟨[], []⟩

/-- A whole run: `event_callback` invoked (callback-driven or
poll-driven) once per reading, in order. -/
def runCallbacks (readings : List (Nat × Bool)) : MonState :=
  readings.foldl (fun st r => event_callback st r.1 r.2) initMonState

/-- The event types recorded for one channel in an event list, in order. -/
def chanTrace (channel : Nat) (events : List (Nat × EvType)) : List EvType :=
  (events.filter (fun p => p.1 == channel)).map (fun p => p.2)

/-- The event types recorded for one channel, in order. -/
def eventsFor (channel : Nat) (st : MonState) : List EvType :=
  chanTrace channel st.motion_events

/-- Strict alternation of a motion-event trace, starting from flag `b`:
from `false` the next event can only be `motion_start`, from `true` only
`motion_end`. -/
def traceOk : Bool → List EvType → Bool
  | _, [] => true
  | false, EvType.motion_start :: rest => traceOk true rest
  | true, EvType.motion_end :: rest => traceOk false rest
  | _, _ => false

/-- The flag value a trace ends in, starting from `b`. -/
def endFlag : Bool → List EvType → Bool
  | b, [] => b
  | _, EvType.motion_start :: rest => endFlag true rest
  | _, EvType.motion_end :: rest => endFlag false rest

/-- The VOD trigger tags the script inspects. -/
inductive VODTrigger where
  | motion
  | person
  | vehicle
  | animal
  | pkg
  | doorbell
deriving DecidableEq

/-- The trigger label of `download_recording` (source lines 637-644):
start from `"recording"`; inside the `if vod_file.bc_triggers:` block
(`none` and the empty tag set are falsy) reassign to `"motion"`,
`"person"`, `"vehicle"` in that order for each tag present — the last
matching check wins. -/
def trigger_label (bc_triggers : Option (List VODTrigger)) : String :=
  let trigger_str := "recording"
  match bc_triggers with
  | none => trigger_str
  | some ts =>
    if ts.isEmpty then trigger_str
    else
      let trigger_str := if ts.contains VODTrigger.motion then "motion" else trigger_str
      let trigger_str := if ts.contains VODTrigger.person then "person" else trigger_str
      let trigger_str := if ts.contains VODTrigger.vehicle then "vehicle" else trigger_str
      trigger_str

/-- The destination filename of `download_recording` (source line 646). -/
def download_filename (timestamp_str : String) (bc_triggers : Option (List VODTrigger))
    (channel : Nat) : String :=
  timestamp_str ++ "_" ++ trigger_label bc_triggers ++ "_ch" ++ toString channel ++ ".mp4"

/-- Claim C1. The boolean branch of `get_config_value` maps every casing
of the truthy tokens `true`/`1`/`yes`/`on` (in particular `"YES"`, `"1"`,
`"true"`, `"On"`) to `true`. But when the key is absent and the default is
the Python boolean `False`, the code does not return `False`: it calls
`.lower()` on a `bool`, which raises `AttributeError` — the claim's
absent-key clause describes the intended behaviour, not the code's. -/
theorem claim_C1 :
    (∀ (config : List (String × String)) (key : String) (d : PyVal) (s : String),
      dictGet config key = some s →
      truthy_tokens.contains (pyLower s) = true →
      get_config_value config key d ValueType.tbool = Except.ok (PyVal.vbool true)) ∧
    get_config_value [("K", "YES")] "K" (PyVal.vbool false) ValueType.tbool
      = Except.ok (PyVal.vbool true) ∧
    get_config_value [("K", "1")] "K" (PyVal.vbool false) ValueType.tbool
      = Except.ok (PyVal.vbool true) ∧
    get_config_value [("K", "true")] "K" (PyVal.vbool false) ValueType.tbool
      = Except.ok (PyVal.vbool true) ∧
    get_config_value [("K", "On")] "K" (PyVal.vbool false) ValueType.tbool
      = Except.ok (PyVal.vbool true) ∧
    get_config_value [] "SMS_ON_MOTION" (PyVal.vbool false) ValueType.tbool
      = Except.error "AttributeError" := by
  refine ⟨?_, rfl, rfl, rfl, rfl, rfl⟩
  intro config key d s hget htruthy
  have hmem : pyLower s ∈ truthy_tokens := by simpa using htruthy
  simp [get_config_value, hget, hmem]

/-- Witness for claim C1 at a concrete config. -/
theorem claim_C1_witness :
    get_config_value [("SMS_ON_MOTION", "yEs")] "SMS_ON_MOTION" (PyVal.vbool false)
      ValueType.tbool = Except.ok (PyVal.vbool true) :=
  claim_C1.1 [("SMS_ON_MOTION", "yEs")] "SMS_ON_MOTION" (PyVal.vbool false) "yEs"
    (by decide) (by decide)

/-- Claim C2. With the client configured, cooldown window `W` and last
successful send at time `T`, a non-forced `send_sms` at time `T + t` with
`t < W` is suppressed (returns `False`, no delivery attempt, state
unchanged); with `t ≥ W` it attempts delivery (reaching the provider call,
which delivers or raises). -/
theorem claim_C2 : ∀ (W T t : Int) (provider_ok : Bool),
    (t < W → send_sms ⟨true, W, T⟩ (T + t) false provider_ok
      = ⟨false, SmsOutcome.suppressed, ⟨true, W, T⟩⟩) ∧
    (W ≤ t →
      (send_sms ⟨true, W, T⟩ (T + t) false provider_ok).outcome
        = (if provider_ok then SmsOutcome.delivered else SmsOutcome.providerError) ∧
      (send_sms ⟨true, W, T⟩ (T + t) false provider_ok).outcome ≠ SmsOutcome.suppressed) := by
  intro W T t provider_ok
  have hc : T + t - T = t := by omega
  constructor
  · intro h
    simp [send_sms, hc, h]
  · intro h
    have h2 : ¬(t < W) := not_lt.mpr h
    cases provider_ok <;> simp [send_sms, hc, h2]

/-- Witness for claim C2: window 300, last send at 1000; the send 10s
later is suppressed, the send 300s later is attempted and delivered. -/
theorem claim_C2_witness :
    send_sms ⟨true, 300, 1000⟩ (1000 + 10) false true
      = ⟨false, SmsOutcome.suppressed, ⟨true, 300, 1000⟩⟩ ∧
    (send_sms ⟨true, 300, 1000⟩ (1000 + 300) false true).outcome
      = (if true then SmsOutcome.delivered else SmsOutcome.providerError) ∧
    (send_sms ⟨true, 300, 1000⟩ (1000 + 300) false true).outcome ≠ SmsOutcome.suppressed :=
  ⟨(claim_C2 300 1000 10 true).1 (by decide),
   (claim_C2 300 1000 300 true).2 (by decide)⟩

/-- Claim C3. With the client configured, a forced `send_sms` never takes
the cooldown-suppression branch, whatever the elapsed time: it always
reaches the provider call. -/
theorem claim_C3 : ∀ (st : SmsState) (current_time : Int) (provider_ok : Bool),
    st.twilioConfigured = true →
    (send_sms st current_time true provider_ok).outcome ≠ SmsOutcome.suppressed ∧
    (send_sms st current_time true provider_ok).outcome
      = (if provider_ok then SmsOutcome.delivered else SmsOutcome.providerError) := by
  intro st current_time provider_ok h
  cases provider_ok <;> simp [send_sms, h]

/-- Witness for claim C3: forced send with zero elapsed time since the
last send is still attempted. -/
theorem claim_C3_witness :
    (send_sms ⟨true, 300, 1000⟩ 1000 true true).outcome ≠ SmsOutcome.suppressed ∧
    (send_sms ⟨true, 300, 1000⟩ 1000 true true).outcome
      = (if true then SmsOutcome.delivered else SmsOutcome.providerError) :=
  claim_C3 ⟨true, 300, 1000⟩ 1000 true rfl

/-- Claim C10. Whenever `send_sms` does not deliver (client missing,
cooldown suppression, or provider error) it returns `False` and leaves the
state — in particular `last_sms_time` — unchanged; only a successful
delivery returns `True` and moves `last_sms_time` to the call time. -/
theorem claim_C10 : ∀ (st : SmsState) (current_time : Int) (force provider_ok : Bool),
    ((send_sms st current_time force provider_ok).outcome ≠ SmsOutcome.delivered →
      (send_sms st current_time force provider_ok).retval = false) ∧
    ((send_sms st current_time force provider_ok).retval = false →
      (send_sms st current_time force provider_ok).state = st) ∧
    ((send_sms st current_time force provider_ok).retval = true →
      (send_sms st current_time force provider_ok).outcome = SmsOutcome.delivered ∧
      (send_sms st current_time force provider_ok).state
        = { st with last_sms_time := current_time }) := by
  intro st current_time force provider_ok
  unfold send_sms
  split_ifs <;> simp_all

/-- Witness for claim C10: an unconfigured client returns `False` with the
state unchanged; a successful delivery updates `last_sms_time`. -/
theorem claim_C10_witness :
    (send_sms ⟨false, 300, 0⟩ 5 false true).state = (⟨false, 300, 0⟩ : SmsState) ∧
    ((send_sms ⟨true, 300, 0⟩ 400 false true).outcome = SmsOutcome.delivered ∧
      (send_sms ⟨true, 300, 0⟩ 400 false true).state
        = { (⟨true, 300, 0⟩ : SmsState) with last_sms_time := 400 }) :=
  ⟨(claim_C10 ⟨false, 300, 0⟩ 5 false true).2.1 (by decide),
   (claim_C10 ⟨true, 300, 0⟩ 400 false true).2.2 (by decide)⟩

/-- Claim C8. A recording whose trigger set contains both the motion and
the vehicle tag gets the label `"vehicle"` (the motion, person, vehicle
checks run in that order and the last matching one wins), whatever other
tags are present; a recording with no trigger tags gets `"recording"`. -/
theorem claim_C8 :
    (∀ (ts : List VODTrigger) (timestamp_str : String) (channel : Nat),
      ts.contains VODTrigger.motion = true →
      ts.contains VODTrigger.vehicle = true →
      trigger_label (some ts) = "vehicle" ∧
      download_filename timestamp_str (some ts) channel
        = timestamp_str ++ "_" ++ "vehicle" ++ "_ch" ++ toString channel ++ ".mp4") ∧
    trigger_label none = "recording" ∧
    trigger_label (some []) = "recording" := by
  refine ⟨?_, rfl, rfl⟩
  intro ts timestamp_str channel hm hv
  have hne : ts.isEmpty = false := by
    cases ts with
    | nil => simp at hm
    | cons a l => rfl
  have hv2 : VODTrigger.vehicle ∈ ts := by simpa using hv
  have hlabel : trigger_label (some ts) = "vehicle" := by
    simp [trigger_label, hne, hv2]
  exact ⟨hlabel, by simp [download_filename, hlabel]⟩

/-- Witness for claim C8 at a concrete trigger set holding motion,
person and vehicle. -/
theorem claim_C8_witness :
    trigger_label (some [VODTrigger.motion, VODTrigger.person, VODTrigger.vehicle])
      = "vehicle" ∧
    download_filename "20240101_120000"
        (some [VODTrigger.motion, VODTrigger.person, VODTrigger.vehicle]) 0
      = "20240101_120000" ++ "_" ++ "vehicle" ++ "_ch" ++ toString 0 ++ ".mp4" :=
  claim_C8.1 [VODTrigger.motion, VODTrigger.person, VODTrigger.vehicle]
    "20240101_120000" 0 (by decide) (by decide)

/-- Claim C6 as stated is false on the code: `check_touchfile` sends the
*stripped* file content, so for the non-empty content `"hi\n"` the sent
message `"hi"` differs from the file content. -/
theorem claim_C6_cex :
    (check_touchfile ⟨true, true, some "hi\n", "default msg", true⟩).sent
      = some ("hi", true) ∧
    ("hi\n" : String) ≠ "" ∧ ("hi" : String) ≠ "hi\n" := by
  refine ⟨rfl, by decide, by decide⟩

/-- Claim C6, amended: with the touchfile feature enabled and the file
present, the alert message equals the *stripped* file content when that is
non-empty; when the stripped content is empty or the read fails, the
default timestamped message is used; the send is forced; and the file
deletion is attempted regardless of the send outcome. -/
theorem claim_C6 : ∀ (ctx : TouchfileCtx),
    ctx.touchfile_enabled = true → ctx.path_exists = true →
    (∀ c, ctx.read_result = some c → pyStrip c ≠ "" →
      check_touchfile ctx = ⟨some (pyStrip c, true), true⟩) ∧
    (∀ c, ctx.read_result = some c → pyStrip c = "" →
      check_touchfile ctx = ⟨some (ctx.default_message, true), true⟩) ∧
    (ctx.read_result = none →
      check_touchfile ctx = ⟨some (ctx.default_message, true), true⟩) ∧
    (check_touchfile ctx).unlink_attempted = true := by
  intro ctx he hp
  refine ⟨?_, ?_, ?_, ?_⟩
  · intro c hr hne
    simp [check_touchfile, he, hp, hr, hne]
  · intro c hr hemp
    simp [check_touchfile, he, hp, hr, hemp]
  · intro hr
    simp [check_touchfile, he, hp, hr]
  · cases hr : ctx.read_result <;> simp [check_touchfile, he, hp, hr]

/-- Witness for claim C6: a file whose content strips to `"hello"`, with
the send failing — the message is still the stripped content and the
deletion is still attempted. -/
theorem claim_C6_witness :
    check_touchfile ⟨true, true, some " hello \n", "default msg", false⟩
      = ⟨some (pyStrip " hello \n", true), true⟩ ∧
    (check_touchfile ⟨true, true, some " hello \n", "default msg", false⟩).unlink_attempted
      = true :=
  ⟨(claim_C6 ⟨true, true, some " hello \n", "default msg", false⟩ rfl rfl).1
      " hello \n" rfl (by decide),
   (claim_C6 ⟨true, true, some " hello \n", "default msg", false⟩ rfl rfl).2.2.2⟩

/-- `dictGet` of a freshly appended assignment finds it. -/
theorem dictGet_append_self (cfg : List (String × String)) (k v : String) :
    dictGet (cfg ++ [(k, v)]) k = some v := by
  simp [dictGet, List.foldl_append]

/-- `dictGet` for a different key ignores an appended assignment. -/
theorem dictGet_append_other (cfg : List (String × String)) (k v k' : String)
    (h : k' ≠ k) : dictGet (cfg ++ [(k, v)]) k' = dictGet cfg k' := by
  simp [dictGet, List.foldl_append, Ne.symm h]

/-- Claim C9. `load_env`: a missing file exits with code 1; stripped-blank
lines and lines whose stripped form starts with `#` contribute nothing; a
remaining line containing `'='` contributes the pair obtained by splitting
at the first `'='` and stripping key and value, leaving every other key's
lookup unchanged; and a later occurrence of a key overwrites any earlier
one (the lookup of a config built from `lines ++ [l]` returns `l`'s
value for `l`'s key). -/
theorem claim_C9 :
    load_env none = Except.error 1 ∧
    (∀ (cfg : List (String × String)) (l : String),
      pyStrip l = "" → processLine cfg l = cfg) ∧
    (∀ (cfg : List (String × String)) (l : String),
      pyStartsWithHash (pyStrip l) = true → processLine cfg l = cfg) ∧
    (∀ (cfg : List (String × String)) (l : String),
      pyStrip l ≠ "" → pyStartsWithHash (pyStrip l) = false →
      pyContains (pyStrip l) '=' = true →
      processLine cfg l = cfg ++ [(lineKey l, lineValue l)] ∧
      dictGet (processLine cfg l) (lineKey l) = some (lineValue l) ∧
      (∀ k, k ≠ lineKey l → dictGet (processLine cfg l) k = dictGet cfg k)) ∧
    (∀ (lines : List String) (l : String),
      pyStrip l ≠ "" → pyStartsWithHash (pyStrip l) = false →
      pyContains (pyStrip l) '=' = true →
      ∃ cfg, load_env (some (lines ++ [l])) = Except.ok cfg ∧
        dictGet cfg (lineKey l) = some (lineValue l)) := by
  have hline : ∀ (cfg : List (String × String)) (l : String),
      pyStrip l ≠ "" → pyStartsWithHash (pyStrip l) = false →
      pyContains (pyStrip l) '=' = true →
      processLine cfg l = cfg ++ [(lineKey l, lineValue l)] := by
    intro cfg l h1 h2 h3
    simp [processLine, h1, h2, h3, lineKey, lineValue]
  refine ⟨rfl, ?_, ?_, ?_, ?_⟩
  · intro cfg l h
    simp [processLine, h]
  · intro cfg l h
    by_cases h1 : pyStrip l = "" <;> simp [processLine, h, h1]
  · intro cfg l h1 h2 h3
    refine ⟨hline cfg l h1 h2 h3, ?_, ?_⟩
    · rw [hline cfg l h1 h2 h3]
      exact dictGet_append_self cfg _ _
    · intro k hk
      rw [hline cfg l h1 h2 h3]
      exact dictGet_append_other cfg _ _ k hk
  · intro lines l h1 h2 h3
    refine ⟨(lines ++ [l]).foldl processLine [], rfl, ?_⟩
    rw [List.foldl_append]
    simp only [List.foldl_cons, List.foldl_nil]
    rw [hline _ l h1 h2 h3]
    exact dictGet_append_self _ _ _

/-- Witness for claim C9 at concrete lines: a `KEY=VALUE` line with inner
whitespace and a second `'='`, and a two-line file where the later
assignment to `A` wins. -/
theorem claim_C9_witness :
    processLine [] " FOO = bar=baz " = [] ++ [(lineKey " FOO = bar=baz ", lineValue " FOO = bar=baz ")] ∧
    (∃ cfg, load_env (some (["A=1"] ++ ["A = 2"])) = Except.ok cfg ∧
      dictGet cfg (lineKey "A = 2") = some (lineValue "A = 2")) :=
  ⟨(claim_C9.2.2.2.1 [] " FOO = bar=baz " (by decide) (by decide) (by decide)).1,
   claim_C9.2.2.2.2 ["A=1"] "A = 2" (by decide) (by decide) (by decide)⟩

/-- The parts list of `format_duration`, written as the concatenation of
its four optional components: day, hour and minute parts appear exactly
when non-zero, the seconds part exactly when the seconds are non-zero or
every other component is zero. -/
theorem duration_parts_eq (n : Nat) :
    duration_parts n =
      (if 0 < n / 86400 then [toString (n / 86400) ++ "d"] else []) ++
      (if 0 < n % 86400 / 3600 then [toString (n % 86400 / 3600) ++ "h"] else []) ++
      (if 0 < n % 3600 / 60 then [toString (n % 3600 / 60) ++ "m"] else []) ++
      (if 0 < n % 60 ∨ (n / 86400 = 0 ∧ n % 86400 / 3600 = 0 ∧ n % 3600 / 60 = 0) then
        [toString (n % 60) ++ "s"] else []) := by
  rcases Nat.eq_zero_or_pos (n / 86400) with hd | hd <;>
    rcases Nat.eq_zero_or_pos (n % 86400 / 3600) with hh | hh <;>
      rcases Nat.eq_zero_or_pos (n % 3600 / 60) with hm | hm <;>
        rcases Nat.eq_zero_or_pos (n % 60) with hs | hs <;>
          simp [duration_parts, hd, hh, hm, hs, Nat.pos_iff_ne_zero] <;> omega

/-- The parts list is never empty. -/
theorem duration_parts_ne_nil (n : Nat) : duration_parts n ≠ [] := by
  rw [duration_parts_eq]
  by_cases hd : 0 < n / 86400
  · simp [hd]
  · by_cases hh : 0 < n % 86400 / 3600
    · simp [hh]
    · by_cases hm : 0 < n % 3600 / 60
      · simp [hm]
      · have h1 : n / 86400 = 0 := by omega
        have h2 : n % 86400 / 3600 = 0 := by omega
        have h3 : n % 3600 / 60 = 0 := by omega
        simp [hd, hh, hm, h1, h2, h3]

/-- Every entry of the parts list is a non-empty string (a numeral
followed by a unit letter). -/
theorem duration_parts_entries_ne (n : Nat) :
    ∀ p ∈ duration_parts n, p.data ≠ [] := by
  rw [duration_parts_eq]
  intro p hp
  have ud : ("d" : String).data = ['d'] := rfl
  have uh : ("h" : String).data = ['h'] := rfl
  have um : ("m" : String).data = ['m'] := rfl
  have us : ("s" : String).data = ['s'] := rfl
  simp only [List.mem_append] at hp
  rcases hp with ((h | h) | h) | h <;> split at h <;>
    simp_all [String.data_append, ud, uh, um, us]

/-- `" ".join` of a non-empty list of non-empty strings is non-empty. -/
theorem joinSp_ne_empty : ∀ (l : List String), l ≠ [] →
    (∀ p ∈ l, p.data ≠ []) → joinSp l ≠ "" := by
  intro l
  match l with
  | [] => intro h; exact absurd rfl h
  | [p] =>
    intro _ hne heq
    have hp : p = "" := heq
    exact hne p (by simp) (by rw [hp])
  | p :: q :: rest =>
    intro _ hne heq
    have hp : p ++ " " ++ joinSp (q :: rest) = "" := heq
    have usp : (" " : String).data = [' '] := rfl
    have hdata : (p ++ " " ++ joinSp (q :: rest)).data = [] := by rw [hp]
    simp [String.data_append, usp] at hdata

/-- Claim C5 as stated is false on the code at its own example input:
86461 seconds is one day plus 61 seconds, so `format_duration` returns
`"1d 1m 1s"`, not the `"1d 1s"` the claim asserts. -/
theorem claim_C5_cex :
    format_duration 86461 = "1d 1m 1s" ∧ format_duration 86461 ≠ "1d 1s" := by
  exact ⟨by decide, by decide⟩

/-- Claim C5, amended: `format_duration` maps 0 to `"0s"`, 90 to
`"1m 30s"` and 86461 to `"1d 1m 1s"`; in general each of the day, hour
and minute components appears exactly when non-zero, the seconds
component exactly when the seconds are non-zero or every other component
is zero, and the result is never the empty string. -/
theorem claim_C5 :
    format_duration 0 = "0s" ∧
    format_duration 90 = "1m 30s" ∧
    format_duration 86461 = "1d 1m 1s" ∧
    (∀ n : Nat,
      duration_parts n =
        (if 0 < n / 86400 then [toString (n / 86400) ++ "d"] else []) ++
        (if 0 < n % 86400 / 3600 then [toString (n % 86400 / 3600) ++ "h"] else []) ++
        (if 0 < n % 3600 / 60 then [toString (n % 3600 / 60) ++ "m"] else []) ++
        (if 0 < n % 60 ∨ (n / 86400 = 0 ∧ n % 86400 / 3600 = 0 ∧ n % 3600 / 60 = 0) then
          [toString (n % 60) ++ "s"] else []) ∧
      format_duration n ≠ "") := by
  refine ⟨by decide, by decide, by decide, fun n => ⟨duration_parts_eq n, ?_⟩⟩
  exact joinSp_ne_empty (duration_parts n) (duration_parts_ne_nil n)
    (duration_parts_entries_ne n)

/-- The float comparison `percent_used >= threshold`, over the exact
rationals, is the integer cross-multiplied comparison when the total is
positive. -/
theorem percent_used_ge_iff (u : DiskUsage) (threshold : Int) (h : 0 < u.total) :
    ((threshold : Rat) ≤ percent_used u ↔
      threshold * (u.total : Int) ≤ (u.used : Int) * 100) := by
  have ht : (0 : Rat) < (u.total : Rat) := by exact_mod_cast h
  unfold percent_used
  rw [div_mul_eq_mul_div, le_div_iff₀ ht]
  constructor <;> intro hh <;> exact_mod_cast hh

/-- Claim C7 as stated is false on the code: with monitoring enabled, the
usage over threshold and the disk-alert cooldown elapsed, the alert can
still fail to go out, because the message is handed to `send_sms` with
`force=False` and the *global* SMS cooldown (`last_sms_time`) suppresses
it; the last-disk-alert timestamp is then left unchanged. Here: window
300, last SMS at 995, check at 1000, last disk alert at 0. -/
theorem claim_C7_cex :
    ((90 : Int) : Rat) ≤ percent_used ⟨100, 95, 5⟩ ∧
    (300 : Int) ≤ 1000 - 0 ∧
    (check_disk_space true "/" 90 ⟨true, 300, 995⟩ 0 (some ⟨100, 95, 5⟩) 1000 true).sent
      = false ∧
    (check_disk_space true "/" 90 ⟨true, 300, 995⟩ 0 (some ⟨100, 95, 5⟩) 1000 true).last_disk_alert_time
      = 0 ∧
    (0 : Int) ≠ 1000 := by
  have hpct : ((90 : Int) : Rat) ≤ percent_used ⟨100, 95, 5⟩ :=
    (percent_used_ge_iff ⟨100, 95, 5⟩ 90 (by decide)).mpr (by decide)
  refine ⟨hpct, by decide, ?_, ?_, by decide⟩ <;>
    · simp [check_disk_space, send_sms]
      split <;> rfl

/-- Claim C7, amended: with monitoring enabled, the usage readable, the
percent-used at or above the threshold, the disk-alert cooldown elapsed,
*and the underlying non-forced SMS send succeeding* (client configured,
global SMS cooldown elapsed, provider delivery succeeding), the formatted
used/total/free GiB alert is sent and `last_disk_alert_time` is set to the
check time; when under threshold or within the disk-alert cooldown, no
send is attempted and the state is unchanged. -/
theorem claim_C7 : ∀ (path : String) (threshold : Int) (sms : SmsState)
    (last_disk_alert_time : Int) (u : DiskUsage) (current_time : Int)
    (provider_ok : Bool),
    (0 < u.total →
      threshold * (u.total : Int) ≤ (u.used : Int) * 100 →
      sms.sms_cooldown ≤ current_time - last_disk_alert_time →
      sms.twilioConfigured = true →
      sms.sms_cooldown ≤ current_time - sms.last_sms_time →
      provider_ok = true →
      check_disk_space true path threshold sms last_disk_alert_time (some u)
          current_time provider_ok
        = ⟨some (disk_alert_message path u), true,
            { sms with last_sms_time := current_time }, current_time⟩) ∧
    (0 < u.total →
      (u.used : Int) * 100 < threshold * (u.total : Int) →
      check_disk_space true path threshold sms last_disk_alert_time (some u)
          current_time provider_ok
        = ⟨none, false, sms, last_disk_alert_time⟩) ∧
    (current_time - last_disk_alert_time < sms.sms_cooldown →
      check_disk_space true path threshold sms last_disk_alert_time (some u)
          current_time provider_ok
        = ⟨none, false, sms, last_disk_alert_time⟩) := by
  intro path threshold sms last_disk_alert_time u current_time provider_ok
  refine ⟨?_, ?_, ?_⟩
  · intro htot hpct hdc hcf hsc hok
    have h1 : (threshold : Rat) ≤ percent_used u :=
      (percent_used_ge_iff u threshold htot).mpr hpct
    have h2 : ¬(u.total = 0) := by omega
    have h3 : ¬(current_time - last_disk_alert_time < sms.sms_cooldown) := by omega
    have h4 : ¬(current_time - sms.last_sms_time < sms.sms_cooldown) := by omega
    simp [check_disk_space, send_sms, h1, h2, h3, h4, hcf, hok]
  · intro htot hpct
    have h1 : ¬((threshold : Rat) ≤ percent_used u) := by
      rw [percent_used_ge_iff u threshold htot]
      omega
    have h2 : ¬(u.total = 0) := by omega
    simp [check_disk_space, h1, h2]
  · intro hdc
    by_cases h2 : u.total = 0
    · simp [check_disk_space, h2]
    · by_cases h1 : (threshold : Rat) ≤ percent_used u <;>
        simp [check_disk_space, h1, h2, hdc]

/-- Witness for claim C7: 95% used against a 90% threshold with both
cooldowns elapsed sends the alert and stamps the time; 50% used sends
nothing; a disk check only 10s after the previous disk alert sends
nothing. -/
theorem claim_C7_witness :
    check_disk_space true "/" 90 ⟨true, 300, 0⟩ 0 (some ⟨100, 95, 5⟩) 400 true
      = ⟨some (disk_alert_message "/" ⟨100, 95, 5⟩), true,
          { (⟨true, 300, 0⟩ : SmsState) with last_sms_time := 400 }, 400⟩ ∧
    check_disk_space true "/" 90 ⟨true, 300, 0⟩ 0 (some ⟨100, 50, 50⟩) 400 true
      = ⟨none, false, ⟨true, 300, 0⟩, 0⟩ ∧
    check_disk_space true "/" 90 ⟨true, 300, 0⟩ 395 (some ⟨100, 95, 5⟩) 400 true
      = ⟨none, false, ⟨true, 300, 0⟩, 395⟩ :=
  ⟨(claim_C7 "/" 90 ⟨true, 300, 0⟩ 0 ⟨100, 95, 5⟩ 400 true).1
      (by decide) (by decide) (by decide) rfl (by decide) rfl,
   (claim_C7 "/" 90 ⟨true, 300, 0⟩ 0 ⟨100, 50, 50⟩ 400 true).2.1
      (by decide) (by decide),
   (claim_C7 "/" 90 ⟨true, 300, 0⟩ 395 ⟨100, 95, 5⟩ 400 true).2.2 (by decide)⟩

/-- Appending a `motion_start` preserves trace alternation exactly when
the trace so far is alternating and ends with the flag low. -/
theorem traceOk_append_start (b : Bool) (l : List EvType) :
    traceOk b (l ++ [EvType.motion_start]) = (traceOk b l && !endFlag b l) := by
  induction l generalizing b with
  | nil => cases b <;> rfl
  | cons e rest ih => cases b <;> cases e <;> simp [traceOk, endFlag, ih]

/-- Appending a `motion_end` preserves trace alternation exactly when the
trace so far is alternating and ends with the flag high. -/
theorem traceOk_append_end (b : Bool) (l : List EvType) :
    traceOk b (l ++ [EvType.motion_end]) = (traceOk b l && endFlag b l) := by
  induction l generalizing b with
  | nil => cases b <;> rfl
  | cons e rest ih => cases b <;> cases e <;> simp [traceOk, endFlag, ih]

/-- The flag a trace ends in after appending an event is determined by
that event. -/
theorem endFlag_append (b : Bool) (l : List EvType) (e : EvType) :
    endFlag b (l ++ [e]) = (match e with
      | EvType.motion_start => true
      | EvType.motion_end => false) := by
  induction l generalizing b with
  | nil => cases e <;> rfl
  | cons x rest ih => cases x <;> simp [endFlag, ih]

/-- An alternating trace has no two adjacent equal event types. -/
theorem traceOk_chain (b : Bool) (l : List EvType) (h : traceOk b l = true) :
    List.Chain' (fun a c => a ≠ c) l := by
  induction l generalizing b with
  | nil => simp
  | cons e rest ih =>
    cases b <;> cases e <;> simp [traceOk] at h
    · cases rest with
      | nil => simp
      | cons e2 rest2 =>
        cases e2 <;> simp [traceOk] at h ⊢
        exact ih true (by simpa [traceOk] using h)
    · cases rest with
      | nil => simp
      | cons e2 rest2 =>
        cases e2 <;> simp [traceOk] at h ⊢
        exact ih false (by simpa [traceOk] using h)

/-- The per-channel invariant maintained by `event_callback`: for every
channel the recorded trace is alternating from an initially-low flag, and
the stored flag equals the flag the trace ends in. -/
def MonInv (st : MonState) : Prop :=
  ∀ c : Nat, traceOk false (chanTrace c st.motion_events) = true ∧
    getFlag st.last_motion_state c = endFlag false (chanTrace c st.motion_events)

/-- Reading the flag after a store: the stored channel sees the new value,
the others are untouched. -/
theorem getFlag_setFlag (l : List (Nat × Bool)) (ch c : Nat) (b : Bool) :
    getFlag (setFlag l ch b) c = if ch == c then b else getFlag l c := by
  unfold getFlag setFlag
  rw [List.find?_cons]
  cases hcc : (ch == c) <;> simp [hcc]

/-- The per-channel trace after appending one event. -/
theorem chanTrace_append (c ch : Nat) (events : List (Nat × EvType)) (e : EvType) :
    chanTrace c (events ++ [(ch, e)])
      = chanTrace c events ++ (if ch == c then [e] else []) := by
  simp only [chanTrace, List.filter_append, List.map_append]
  cases hcc : (ch == c) <;> simp [hcc]

/-- The result of one `event_callback` invocation, in closed form: the
stored flag is always overwritten with the fresh reading, and the
appended event (if any) is determined by the transition. -/
theorem event_callback_eq (st : MonState) (ch : Nat) (m : Bool) :
    event_callback st ch m =
      ⟨setFlag st.last_motion_state ch m,
        st.motion_events ++
          (if m && !(getFlag st.last_motion_state ch) then [(ch, EvType.motion_start)]
           else if !m && getFlag st.last_motion_state ch then [(ch, EvType.motion_end)]
           else [])⟩ := by
  unfold event_callback
  by_cases h1 : (m && !(getFlag st.last_motion_state ch)) = true
  · simp [h1]
  · by_cases h2 : (!m && getFlag st.last_motion_state ch) = true
    · simp [h1, h2]
    · simp [h1, h2]

/-- One `event_callback` invocation preserves the invariant. -/
theorem monInv_step (st : MonState) (ch : Nat) (m : Bool) (h : MonInv st) :
    MonInv (event_callback st ch m) := by
  intro c
  obtain ⟨hok, hflag⟩ := h c
  have hwas := (h ch).2
  rw [event_callback_eq]
  cases m <;> cases hwb : getFlag st.last_motion_state ch <;>
    simp only [hwb, Bool.not_false, Bool.not_true, Bool.true_and, Bool.false_and,
      Bool.and_false, Bool.and_true, if_true, if_false, ite_true, ite_false,
      Bool.false_eq_true, List.append_nil]
  -- m = false, was = false: no event appended
  · exact ⟨hok, by rw [getFlag_setFlag]; cases hcc : (ch == c) with
      | false => simpa [hcc] using hflag
      | true =>
        have hc : ch = c := by simpa using hcc
        subst hc
        simp only [if_true]
        rw [← hwas, hwb]⟩
  -- m = false, was = true: motion_end appended
  · constructor
    · rw [chanTrace_append]
      cases hcc : (ch == c) with
      | false => simpa [hcc] using hok
      | true =>
        have hc : ch = c := by simpa using hcc
        subst hc
        simp only [if_true]
        rw [traceOk_append_end, hok, ← hwas, hwb]
        rfl
    · rw [getFlag_setFlag, chanTrace_append]
      cases hcc : (ch == c) with
      | false => simpa [hcc] using hflag
      | true =>
        have hc : ch = c := by simpa using hcc
        subst hc
        simp only [if_true]
        rw [endFlag_append]
  -- m = true, was = false: motion_start appended
  · constructor
    · rw [chanTrace_append]
      cases hcc : (ch == c) with
      | false => simpa [hcc] using hok
      | true =>
        have hc : ch = c := by simpa using hcc
        subst hc
        simp only [if_true]
        rw [traceOk_append_start, hok, ← hwas, hwb]
        rfl
    · rw [getFlag_setFlag, chanTrace_append]
      cases hcc : (ch == c) with
      | false => simpa [hcc] using hflag
      | true =>
        have hc : ch = c := by simpa using hcc
        subst hc
        simp only [if_true]
        rw [endFlag_append]
  -- m = true, was = true: no event appended
  · exact ⟨hok, by rw [getFlag_setFlag]; cases hcc : (ch == c) with
      | false => simpa [hcc] using hflag
      | true =>
        have hc : ch = c := by simpa using hcc
        subst hc
        simp only [if_true]
        rw [← hwas, hwb]⟩

/-- Every reachable monitoring state satisfies the invariant. -/
theorem monInv_run (readings : List (Nat × Bool)) : MonInv (runCallbacks readings) := by
  suffices h : ∀ (rs : List (Nat × Bool)) (st : MonState), MonInv st →
      MonInv (rs.foldl (fun s r => event_callback s r.1 r.2) st) from
    h readings initMonState (fun c => ⟨rfl, rfl⟩)
  intro rs
  induction rs with
  | nil => intro st h; exact h
  | cons r rest ih =>
    intro st h
    exact ih (event_callback st r.1 r.2) (monInv_step st r.1 r.2 h)

/-- Claim C4. For every sequence of `event_callback` invocations
(callback-driven or poll-driven, each with its freshly read motion value)
from the initial state, the events recorded for each channel alternate
strictly: the trace satisfies `traceOk false` (it begins with
`motion_start` and start/end alternate), and in particular no two adjacent
recorded events for a channel are equal. -/
theorem claim_C4 : ∀ (readings : List (Nat × Bool)) (c : Nat),
    traceOk false (eventsFor c (runCallbacks readings)) = true ∧
    List.Chain' (fun a b => a ≠ b) (eventsFor c (runCallbacks readings)) := by
  intro readings c
  have h := (monInv_run readings c).1
  exact ⟨h, traceOk_chain false _ h⟩

end ReolinkSms
